import Mathlib

/-!
Shallow embedding of the Guild Membership & Role-Based Authorization Engine
of the Stellar-Guilds repository (`src/backend/src/guild/guild.service.ts`).

The Prisma store is modelled as an explicit state (`DB`) holding the guild
and membership tables; each service method becomes a pure function
`DB → Except Err (result × DB)`, where a thrown Nest exception is an
`Err` value and the state is discarded on error (every throw in the
embedded methods happens before any write, or corresponds to a store
rejection).  Fresh values produced by the environment (`randomUUID()`,
`Date.now()`, generated ids) are passed in as explicit parameters.
-/

namespace StellarGuilds

/-- Guild roles, as used by `guild.service.ts` / the Prisma `Role` enum. -/
inductive Role where
  | OWNER
  | ADMIN
  | MODERATOR
  | MEMBER
  deriving DecidableEq, Repr

/-- Membership lifecycle status, as used by `guild.service.ts`. -/
inductive MembershipStatus where
  | PENDING
  | APPROVED
  | REVOKED
  deriving DecidableEq, Repr

/-- The Nest exception classes thrown by `guild.service.ts`, with their
message strings.  `internal` also stands for an unhandled Prisma error
(unique-constraint violation or update on a missing record) escaping the
service method. -/
inductive Err where
  | notFound (msg : String)
  | forbidden (msg : String)
  | badRequest (msg : String)
  | conflict (msg : String)
  | internal (msg : String)
  deriving DecidableEq, Repr

/-- Mirrors `getRoleWeight` (guild.service.ts:96-108); the `default`
branch of the switch gives every non-listed value the MEMBER weight 1. -/
def getRoleWeight : Role → Nat
  | .OWNER => 4
  | .ADMIN => 3
  | .MODERATOR => 2
  | .MEMBER => 1

/-- Characters kept by the second regex of `slugify`: `[a-z0-9-]`. -/
def isSlugChar (c : Char) : Bool :=
  (decide ('a' ≤ c) && decide (c ≤ 'z'))
    || (decide ('0' ≤ c) && decide (c ≤ '9'))
    || c == '-'

/-- Mirrors `.replace(/\s+/g, '-')`: each maximal run of whitespace
becomes a single hyphen.  The flag records whether the previous
character was whitespace. -/
def squashWhitespace : Bool → List Char → List Char
  | _, [] => []
  | prevWs, c :: rest =>
    if c.isWhitespace then
      (if prevWs then [] else ['-']) ++ squashWhitespace true rest
    else
      c :: squashWhitespace false rest

/-- Mirrors `slugify` (guild.service.ts:14-20): lowercase, whitespace
runs to single hyphens, characters outside `[a-z0-9-]` removed,
truncated to 100 characters. -/
def slugify (name : String) : String :=
  String.mk (((squashWhitespace false name.toLower.toList).filter isSlugChar).take 100)

/-- Guild settings JSON object.  Modelled from the spec: the settings
validator (`guild.settings.ts`) is not under `src/`; §4.3 of the spec
enumerates the recognized options `discoverable`, `requireApproval` and
`visibility`.  Only the `discoverable` key is read by the embedded
service code (the JSON-path filter in `searchGuilds`). -/
structure GuildSettings where
  discoverable : Option Bool := none
  requireApproval : Option Bool := none
  visibility : Option String := none
  deriving DecidableEq, Repr

/-- Modelled from the spec: the Prisma schema (not under `src/`) supplies
the column default for `Guild.memberCount`, which `createGuild` never
writes.  The spec's invariant (§3 and §8: `memberCount` equals the number
of APPROVED memberships immediately after every successful mutating
call), together with creation minting exactly one APPROVED OWNER
membership, fixes the default at 1. -/
def memberCountDefault : Int := 1

/-- A row of the Prisma `Guild` table, restricted to the columns the
embedded service methods read or write. -/
structure Guild where
  id : String
  name : String
  slug : String
  description : Option String := none
  ownerId : String
  settings : GuildSettings := {}
  memberCount : Int := memberCountDefault
  deriving DecidableEq, Repr

/-- A row of the Prisma `GuildMembership` table, restricted to the
columns the embedded service methods read or write.  Timestamps are
epoch milliseconds. -/
structure GuildMembership where
  id : Nat
  userId : String
  guildId : String
  role : Role
  status : MembershipStatus
  invitationToken : Option String := none
  invitedById : Option String := none
  invitationExpiresAt : Option Nat := none
  joinedAt : Option Nat := none
  deriving DecidableEq, Repr

/-- The store state: the two tables plus a counter minting membership
row ids. -/
structure DB where
  guilds : List Guild := []
  memberships : List GuildMembership := []
  nextId : Nat := 0
  deriving DecidableEq, Repr

/-- Mirrors `prisma.guild.findUnique({ where: { id } })`. -/
def findGuild (db : DB) (guildId : String) : Option Guild :=
  db.guilds.find? (fun g => g.id == guildId)

/-- Mirrors `prisma.guildMembership.findUnique({ where: { userId_guildId } })`. -/
def findMembership (db : DB) (userId guildId : String) : Option GuildMembership :=
  db.memberships.find? (fun m => m.userId == userId && m.guildId == guildId)

/-- Mirrors `prisma.guildMembership.findFirst({ where: { guildId, invitationToken } })`. -/
def findMembershipByToken (db : DB) (guildId token : String) : Option GuildMembership :=
  db.memberships.find? (fun m => m.guildId == guildId && m.invitationToken == some token)

/-- Mirrors `prisma.guildMembership.create`: the store enforces the
`(userId, guildId)` unique key; a violation (Prisma `P2002`) is uncaught
in the membership paths and escapes as an internal error. -/
def membershipCreate (db : DB) (m : GuildMembership) :
    Except Err (GuildMembership × DB) :=
  if db.memberships.any (fun x => x.userId == m.userId && x.guildId == m.guildId) then
    .error (.internal "Unique constraint failed on (userId, guildId)")
  else
    .ok (m, { db with memberships := db.memberships ++ [m], nextId := db.nextId + 1 })

/-- Mirrors `prisma.guildMembership.update({ where: { id } })` with an
update function standing for the `data` object.  The call sites only use
ids of rows just read from the same state, so the update always finds
its row. -/
def membershipUpdate (db : DB) (mid : Nat) (f : GuildMembership → GuildMembership) : DB :=
  { db with memberships := db.memberships.map (fun m => if m.id == mid then f m else m) }

/-- Mirrors `prisma.guildMembership.delete({ where: { id } })`. -/
def membershipDelete (db : DB) (mid : Nat) : DB :=
  { db with memberships := db.memberships.filter (fun m => !(m.id == mid)) }

/-- The guild-table effect of `prisma.guild.update` with
`memberCount: { increment | decrement }`: the matching guild's count is
shifted by `delta`. -/
def bumpCount (db : DB) (guildId : String) (delta : Int) : DB :=
  { db with
    guilds := db.guilds.map (fun g =>
      if g.id == guildId then { g with memberCount := g.memberCount + delta } else g) }

/-- Mirrors `prisma.guild.update` with `memberCount: { increment | decrement }`;
updating a missing guild is a Prisma `P2025` error, uncaught by the
service methods. -/
def guildUpdateCount (db : DB) (guildId : String) (delta : Int) : Except Err DB :=
  if db.guilds.any (fun g => g.id == guildId) then
    .ok (bumpCount db guildId delta)
  else
    .error (.internal "Record to update not found")

/-- The stored `memberCount` of a guild, when the guild exists. -/
def memberCountOf (db : DB) (guildId : String) : Option Int :=
  (findGuild db guildId).map Guild.memberCount

/-- The number of APPROVED membership rows of a guild. -/
def approvedCount (db : DB) (guildId : String) : Nat :=
  (db.memberships.filter (fun m => m.guildId == guildId && m.status == .APPROVED)).length

/-- The denormalized-count invariant of the spec (§3, §8): every guild's
`memberCount` equals its number of APPROVED memberships. -/
def countInvariantHolds (db : DB) : Bool :=
  db.guilds.all (fun g => g.memberCount == (approvedCount db g.id : Int))

/-- Mirrors `ensureManagePermission` (guild.service.ts:82-94).  Note the
source checks only existence and role weight of the membership, never
its status. -/
def ensureManagePermission (db : DB) (guildId userId : String) : Except Err Unit :=
  match findGuild db guildId with
  | none => .error (.notFound "Guild not found")
  | some guild =>
    if guild.ownerId == userId then .ok ()
    else
      match findMembership db userId guildId with
      | none => .error (.forbidden "Not a member")
      | some membership =>
        if getRoleWeight membership.role ≤ getRoleWeight .MEMBER then
          .error (.forbidden "Insufficient guild permissions")
        else .ok ()

/-- The `CreateGuildDto` fields read by `createGuild`. -/
structure CreateGuildDto where
  name : String
  slug : Option String := none
  description : Option String := none
  settings : GuildSettings := {}
  deriving Repr

/-- Mirrors `createGuild` (guild.service.ts:22-62).  `freshGuildId`
stands for the id the store assigns, `now` for `new Date()`.  A falsy
(absent or empty) `dto.slug` falls back to `slugify(dto.name)`. -/
def createGuild (db : DB) (dto : CreateGuildDto) (ownerId : String)
    (freshGuildId : String) (now : Nat) : Except Err (Guild × DB) :=
  let slug := match dto.slug with
    | some s => if s.isEmpty then slugify dto.name else s
    | none => slugify dto.name
  match db.guilds.find? (fun g => g.slug == slug) with
  | some _ => .error (.conflict "Slug already in use")
  | none =>
    let guild : Guild :=
      { id := freshGuildId, name := dto.name, slug := slug,
        description := dto.description, ownerId := ownerId,
        settings := dto.settings, memberCount := memberCountDefault }
    let db1 : DB := { db with guilds := db.guilds ++ [guild] }
    (membershipCreate db1
      { id := db1.nextId, userId := ownerId, guildId := freshGuildId,
        role := .OWNER, status := .APPROVED, joinedAt := some now }).map
      (fun p => (guild, p.2))

/-- Case-insensitive substring match, mirroring the Prisma filter
`{ contains: q, mode: 'insensitive' }`. -/
def containsCI (hay needle : String) : Bool :=
  decide (needle.toLower.toList <:+: hay.toLower.toList)

/-- The paginated result shape of `searchGuilds`. -/
structure SearchResult where
  items : List Guild
  total : Nat
  page : Nat
  size : Nat
  deriving Repr

/-- Mirrors `searchGuilds` (guild.service.ts:130-151): a text filter on
name/description applies only when `q` is truthy (present and
non-empty); the `discoverable = true` JSON-path filter applies always.
A guild whose settings lack the key, or set it to `false`, fails the
`equals: true` path filter. -/
def searchGuilds (db : DB) (q : Option String) (page size : Nat) : SearchResult :=
  let hasQuery := match q with | none => false | some s => !s.isEmpty
  let wherePred := fun (g : Guild) =>
    (if hasQuery then
        containsCI g.name (q.getD "") || containsCI (g.description.getD "") (q.getD "")
      else true)
    && g.settings.discoverable == some true
  let found := db.guilds.filter wherePred
  { items := (found.drop (page * size)).take size,
    total := found.length, page := page, size := size }

/-- The `InviteMemberDto` fields read by `inviteMember`. -/
structure InviteMemberDto where
  userId : String
  role : Option Role := none
  deriving Repr

/-- Mirrors `inviteMember` (guild.service.ts:153-185).  `freshToken`
stands for `randomUUID()`, `now` for `Date.now()`, `ttlDays` for the
`INVITE_TTL_DAYS` environment value defaulting to 7.  The email
side-effect has no store effect and is dropped. -/
def inviteMember (db : DB) (guildId : String) (dto : InviteMemberDto)
    (invitedBy : String) (freshToken : String) (now ttlDays : Nat) :
    Except Err ((GuildMembership × String) × DB) :=
  match ensureManagePermission db guildId invitedBy with
  | .error e => .error e
  | .ok _ =>
    match findMembership db dto.userId guildId with
    | some _ => .error (.badRequest "User already invited or member")
    | none =>
      let expiresAt := now + ttlDays * 24 * 60 * 60 * 1000
      (membershipCreate db
        { id := db.nextId, userId := dto.userId, guildId := guildId,
          role := match dto.role with | some r => r | none => .MEMBER,
          status := .PENDING, invitationToken := some freshToken,
          invitedById := some invitedBy,
          invitationExpiresAt := some expiresAt }).map
        (fun p => ((p.1, freshToken), p.2))

/-- The `data` object of the membership update in both approval paths
(guild.service.ts:232 and 245): approve, stamp `joinedAt`, clear the
token. -/
def approveUpd (now : Nat) (m : GuildMembership) : GuildMembership :=
  { m with status := .APPROVED, joinedAt := some now, invitationToken := none }

/-- The shared tail of both approval paths (guild.service.ts:230-236 and
245-246): update the membership row, then increment the guild count. -/
def approveTransition (db : DB) (guildId : String) (membership : GuildMembership)
    (now : Nat) : Except Err (GuildMembership × DB) :=
  (guildUpdateCount (membershipUpdate db membership.id (approveUpd now)) guildId 1).map
    (fun db2 => (approveUpd now membership, db2))

/-- Mirrors `approveInviteByToken` (guild.service.ts:223-238).  The
source never reads `invitationExpiresAt` and never checks the found
membership's status; self-approval bypasses the permission check. -/
def approveInviteByToken (db : DB) (guildId token approverId : String) (now : Nat) :
    Except Err (GuildMembership × DB) :=
  match findMembershipByToken db guildId token with
  | none => .error (.notFound "Invite not found")
  | some membership =>
    if membership.userId == approverId then
      approveTransition db guildId membership now
    else
      match ensureManagePermission db guildId approverId with
      | .error e => .error e
      | .ok _ => approveTransition db guildId membership now

/-- Mirrors `approveInviteForUser` (guild.service.ts:240-248). -/
def approveInviteForUser (db : DB) (guildId userId : String) (now : Nat) :
    Except Err (GuildMembership × DB) :=
  match findMembership db userId guildId with
  | none => .error (.notFound "Invite not found")
  | some membership =>
    if membership.status == .PENDING then
      approveTransition db guildId membership now
    else .error (.badRequest "No pending invite to approve")

/-- The create-and-increment tail of `joinGuild` (guild.service.ts:259-261),
reached when no membership exists or the existing one is neither
APPROVED nor PENDING. -/
def joinGuildCreate (db : DB) (guildId userId : String) (now : Nat) :
    Except Err (GuildMembership × DB) :=
  match membershipCreate db
      { id := db.nextId, userId := userId, guildId := guildId,
        role := .MEMBER, status := .APPROVED, joinedAt := some now } with
  | .error e => .error e
  | .ok (m, db1) => (guildUpdateCount db1 guildId 1).map (fun db2 => (m, db2))

/-- The `data` object of the membership update in `joinGuild`'s
PENDING-convergence branch (guild.service.ts:254): approve and stamp
`joinedAt` — the token is not touched. -/
def joinUpd (now : Nat) (m : GuildMembership) : GuildMembership :=
  { m with status := .APPROVED, joinedAt := some now }

/-- Mirrors `joinGuild` (guild.service.ts:250-262).  Note the
PENDING-convergence branch sets status and `joinedAt` but does not
touch `invitationToken`. -/
def joinGuild (db : DB) (guildId userId : String) (now : Nat) :
    Except Err (GuildMembership × DB) :=
  match findMembership db userId guildId with
  | some existing =>
    if existing.status == .APPROVED then .ok (existing, db)
    else if existing.status == .PENDING then
      (guildUpdateCount (membershipUpdate db existing.id (joinUpd now)) guildId 1).map
        (fun db2 => (joinUpd now existing, db2))
    else joinGuildCreate db guildId userId now
  | none => joinGuildCreate db guildId userId now

/-- Mirrors `leaveGuild` (guild.service.ts:264-271).  The source checks
only the membership's role, never its status, and throws
`BadRequestException` for the owner. -/
def leaveGuild (db : DB) (guildId userId : String) : Except Err (Bool × DB) :=
  match findMembership db userId guildId with
  | none => .error (.notFound "Not a member")
  | some membership =>
    if membership.role == .OWNER then
      .error (.badRequest "Owner cannot leave the guild")
    else
      (guildUpdateCount (membershipDelete db membership.id) guildId (-1)).map
        (fun db2 => (true, db2))

/-- Mirrors `assignRole` (guild.service.ts:273-295). -/
def assignRole (db : DB) (guildId targetUserId : String) (role : Role)
    (byUserId : String) : Except Err (GuildMembership × DB) :=
  match ensureManagePermission db guildId byUserId with
  | .error e => .error e
  | .ok _ =>
    match findMembership db byUserId guildId with
    | none => .error (.forbidden "You are not a member")
    | some actorMembership =>
      match findMembership db targetUserId guildId with
      | none => .error (.notFound "Member not found")
      | some targetMembership =>
        if targetMembership.role == .OWNER || role == .OWNER then
          .error (.badRequest "Cannot assign owner role via this endpoint")
        else if getRoleWeight actorMembership.role ≤ getRoleWeight targetMembership.role then
          .error (.forbidden "Cannot change role of equal or higher member")
        else if getRoleWeight actorMembership.role ≤ getRoleWeight role then
          .error (.forbidden "Cannot assign a role equal or higher than your own")
        else
          .ok ({ targetMembership with role := role },
            membershipUpdate db targetMembership.id (fun m => { m with role := role }))

/-- Tests whether a service result is a `ForbiddenException`. -/
def resultIsForbidden {α : Type} : Except Err α → Bool
  | .error (.forbidden _) => true
  | _ => false

/-- The store state reached from the empty store by: `createGuild`
("Cosmic Explorers", owner `u1`, id `g1`), then `inviteMember` of `u2`
by `u1` (token `tok-1`), then `leaveGuild` by `u2` — whose membership is
still PENDING. -/
def pendingLeaveFinal : Except Err DB :=
  (createGuild {} { name := "Cosmic Explorers" } "u1" "g1" 0).bind (fun p1 =>
    (inviteMember p1.2 "g1" { userId := "u2" } "u1" "tok-1" 0 7).bind (fun p2 =>
      (leaveGuild p2.2 "g1" "u2").map (fun p3 => p3.2)))

/-- The guild record `g1` used by the concrete scenario states below:
owned by `o1`, fresh count. -/
def scenarioGuild : Guild :=
  { id := "g1", name := "G One", slug := "g-one", ownerId := "o1" }

/-- The owner's membership of `scenarioGuild`. -/
def scenarioOwnerM : GuildMembership :=
  { id := 0, userId := "o1", guildId := "g1", role := .OWNER,
    status := .APPROVED, joinedAt := some 0 }

/-- A membership for `u2` in `g1` whose status is REVOKED but whose
role is ADMIN. -/
def revokedAdminM : GuildMembership :=
  { id := 1, userId := "u2", guildId := "g1", role := .ADMIN, status := .REVOKED }

/-- Concrete state: guild `g1` owned by `o1`, holding the owner's
APPROVED OWNER membership and a membership for `u2` whose status is
REVOKED but whose role is ADMIN. -/
def revokedAdminDb : DB :=
  { guilds := [scenarioGuild],
    memberships := [scenarioOwnerM, revokedAdminM],
    nextId := 2 }

/-- Concrete state: guild `g1` owned by `o1`, with the owner's APPROVED
OWNER membership and a PENDING invite for `u2` carrying token `tok-1`
that expired at time 100. -/
def expiredInviteDb : DB :=
  { guilds := [scenarioGuild],
    memberships :=
      [ scenarioOwnerM,
        { id := 1, userId := "u2", guildId := "g1", role := .MEMBER,
          status := .PENDING, invitationToken := some "tok-1",
          invitedById := some "o1", invitationExpiresAt := some 100 } ],
    nextId := 2 }

/-- Concrete state: like `expiredInviteDb`, but the PENDING invite for
`u2` expires only at time 1000000 (far in the future). -/
def pendingInviteDb : DB :=
  { guilds := [scenarioGuild],
    memberships :=
      [ scenarioOwnerM,
        { id := 1, userId := "u2", guildId := "g1", role := .MEMBER,
          status := .PENDING, invitationToken := some "tok-1",
          invitedById := some "o1", invitationExpiresAt := some 1000000 } ],
    nextId := 2 }

/-- The membership returned by a successful `approveInviteByToken` of
`tok-1` on `pendingInviteDb` at time 200. -/
def approvedInviteM : GuildMembership :=
  { id := 1, userId := "u2", guildId := "g1", role := .MEMBER,
    status := .APPROVED, invitationToken := none, invitedById := some "o1",
    invitationExpiresAt := some 1000000, joinedAt := some 200 }

/-- The store state after `approveInviteByToken pendingInviteDb "g1"
"tok-1" "u2" 200`: the invite row approved with its token cleared, and
the guild count incremented to 2. -/
def approvedInviteDb : DB :=
  { guilds := [{ scenarioGuild with memberCount := 2 }],
    memberships := [scenarioOwnerM, approvedInviteM],
    nextId := 2 }

/-- Concrete state for role assignment: guild `g1` with its owner, an
APPROVED ADMIN `a1` and an APPROVED MODERATOR `m1`. -/
def adminModDb : DB :=
  { guilds := [scenarioGuild],
    memberships :=
      [ scenarioOwnerM,
        { id := 1, userId := "a1", guildId := "g1", role := .ADMIN,
          status := .APPROVED, joinedAt := some 0 },
        { id := 2, userId := "m1", guildId := "g1", role := .MODERATOR,
          status := .APPROVED, joinedAt := some 0 } ],
    nextId := 3 }

/-- The ADMIN actor's membership in `adminModDb`. -/
def adminActorM : GuildMembership :=
  { id := 1, userId := "a1", guildId := "g1", role := .ADMIN,
    status := .APPROVED, joinedAt := some 0 }

/-- The MODERATOR target's membership in `adminModDb`. -/
def modTargetM : GuildMembership :=
  { id := 2, userId := "m1", guildId := "g1", role := .MODERATOR,
    status := .APPROVED, joinedAt := some 0 }

/-- A guild whose settings mark it discoverable. -/
def discoverableG : Guild :=
  { id := "gA", name := "Alpha", slug := "alpha", ownerId := "o1",
    settings := { discoverable := some true } }

/-- Concrete state: a discoverable guild and a non-discoverable one. -/
def searchDb : DB :=
  { guilds :=
      [ discoverableG,
        { id := "gB", name := "Beta", slug := "beta", ownerId := "o1" } ],
    memberships := [], nextId := 0 }

/-! Helper lemmas about the store primitives. -/

theorem find?_append_none {α : Type} (p : α → Bool) {l₁ : List α} (l₂ : List α)
    (h : l₁.find? p = none) : (l₁ ++ l₂).find? p = l₂.find? p := by
  induction l₁ with
  | nil => rfl
  | cons a l ih =>
    by_cases hpa : p a
    · rw [List.find?_cons_of_pos _ hpa] at h
      cases h
    · rw [List.find?_cons_of_neg _ hpa] at h
      rw [List.cons_append, List.find?_cons_of_neg _ hpa]
      exact ih h

theorem find?_map_comm {α : Type} (f : α → α) (p : α → Bool)
    (hp : ∀ a, p (f a) = p a) (l : List α) :
    (l.map f).find? p = (l.find? p).map f := by
  induction l with
  | nil => rfl
  | cons a l ih =>
    by_cases hpa : p a
    · rw [List.map_cons, List.find?_cons_of_pos _ (by rw [hp]; exact hpa),
        List.find?_cons_of_pos _ hpa]
      rfl
    · rw [List.map_cons, List.find?_cons_of_neg _ (by rw [hp]; exact hpa),
        List.find?_cons_of_neg _ hpa, ih]

theorem findGuild_bumpCount (db : DB) (guildId : String) (delta : Int)
    (g : Guild) (hg : findGuild db guildId = some g) :
    findGuild (bumpCount db guildId delta) guildId =
      some { g with memberCount := g.memberCount + delta } := by
  unfold findGuild at hg ⊢
  have hgid := List.find?_some hg
  unfold bumpCount
  rw [find?_map_comm _ _ (fun a => by by_cases h : a.id == guildId <;> simp [h])]
  rw [hg]
  have hid : g.id = guildId := eq_of_beq hgid
  simp [hid]

theorem memberCountOf_bumpCount (db : DB) (guildId : String) (delta : Int)
    (g : Guild) (hg : findGuild db guildId = some g) :
    memberCountOf (bumpCount db guildId delta) guildId = some (g.memberCount + delta) := by
  unfold memberCountOf
  rw [findGuild_bumpCount db guildId delta g hg]
  rfl

theorem guildUpdateCount_ok (db : DB) (guildId : String) (delta : Int)
    (g : Guild) (hg : findGuild db guildId = some g) :
    guildUpdateCount db guildId delta = .ok (bumpCount db guildId delta) := by
  unfold findGuild at hg
  unfold guildUpdateCount
  have hany : db.guilds.any (fun x => x.id == guildId) = true :=
    List.any_eq_true.mpr ⟨g, List.mem_of_find?_eq_some hg, by
      have h := List.find?_some hg
      exact h⟩
  rw [hany]
  rfl

end StellarGuilds

namespace StellarGuilds

/-- C1: the denormalized member-count invariant fails on the code.  All
three calls of the scenario (`createGuild`, `inviteMember` by the owner,
then `leaveGuild` by the invited user whose membership is still PENDING)
succeed, yet the final state has `memberCount = 0` while one APPROVED
membership (the owner's) remains: `leaveGuild` decrements the count even
though the membership it deletes is not APPROVED. -/
theorem C1_pending_leave_breaks_count_invariant :
    pendingLeaveFinal.map
        (fun db => (countInvariantHolds db, memberCountOf db "g1", approvedCount db "g1"))
      = .ok (false, some 0, 1) := rfl

/-- C2: the management-permission check does not deny a non-owner actor
whose membership status is not APPROVED.  In `revokedAdminDb`, user `u2`
is not the owner and holds a membership in status REVOKED with role
ADMIN, yet `ensureManagePermission` allows: the source checks only
membership existence and role weight, never status. -/
theorem C2_revoked_admin_passes_manage_check :
    (findMembership revokedAdminDb "u2" "g1").map (fun m => (m.status, m.role))
        = some (.REVOKED, .ADMIN)
    ∧ (findGuild revokedAdminDb "g1").map Guild.ownerId = some "o1"
    ∧ ensureManagePermission revokedAdminDb "g1" "u2" = .ok () :=
  ⟨rfl, rfl, rfl⟩

/-- C3 counterexample: `leaveGuild` called by the owner `o1` fails with
a BadRequest error, not a Forbidden one, so the claim as stated is false
at this input. -/
theorem C3_counterexample_owner_leave_not_forbidden :
    leaveGuild revokedAdminDb "g1" "o1"
        = .error (.badRequest "Owner cannot leave the guild")
    ∧ resultIsForbidden (leaveGuild revokedAdminDb "g1" "o1") = false :=
  ⟨rfl, rfl⟩

/-- C4 counterexample: `u2` holds a REVOKED membership in `g1`, yet
`inviteMember` by the owner fails instead of creating a new PENDING
invite, so the claim as stated is false at this input: the source
rejects on any existing membership, regardless of status. -/
theorem C4_counterexample_revoked_reinvite_blocked :
    (findMembership revokedAdminDb "u2" "g1").map GuildMembership.status
        = some .REVOKED
    ∧ inviteMember revokedAdminDb "g1" { userId := "u2" } "o1" "tok-9" 0 7
        = .error (.badRequest "User already invited or member") :=
  ⟨rfl, rfl⟩

/-- C5: `approveInviteByToken` does not reject expired PENDING invites.
The invite of `expiredInviteDb` expired at time 100, yet approval at
time 200 succeeds, transitions the membership to APPROVED and increments
the member count: the source never reads `invitationExpiresAt`. -/
theorem C5_expired_invite_approval_succeeds :
    (findMembershipByToken expiredInviteDb "g1" "tok-1").map
        (fun m => (m.status, m.invitationExpiresAt)) = some (.PENDING, some 100)
    ∧ (100 : Nat) < 200
    ∧ (approveInviteByToken expiredInviteDb "g1" "tok-1" "u2" 200).map
        (fun p => (p.1.status, memberCountOf p.2 "g1")) = .ok (.APPROVED, some 2) :=
  ⟨rfl, by decide, rfl⟩

/-- C3 (amended): `leaveGuild` called by the user holding the OWNER
membership fails with a BadRequest error (not Forbidden) and changes
nothing; called by a user with any existing non-OWNER membership —
regardless of its status, APPROVED or not — it succeeds, deletes the
membership and decrements `memberCount` exactly once.  No APPROVED
precondition is enforced: a caller with only a PENDING membership also
triggers the delete-and-decrement. -/
theorem C3_leave_behavior (db : DB) (guildId userId : String)
    (m : GuildMembership) (g : Guild)
    (hm : findMembership db userId guildId = some m)
    (hg : findGuild db guildId = some g) :
    (m.role = .OWNER →
      leaveGuild db guildId userId
        = .error (.badRequest "Owner cannot leave the guild")) ∧
    (m.role ≠ .OWNER →
      ∃ db', leaveGuild db guildId userId = .ok (true, db') ∧
        m ∉ db'.memberships ∧
        memberCountOf db' guildId = some (g.memberCount - 1)) := by
  constructor
  · intro hrole
    simp [leaveGuild, hm, hrole]
  · intro hrole
    have hbeq : (m.role == Role.OWNER) = false := by
      cases hr : m.role == Role.OWNER
      · rfl
      · exact absurd (eq_of_beq hr) hrole
    simp only [leaveGuild, hm, hbeq, Bool.false_eq_true, if_false]
    have hg' : findGuild (membershipDelete db m.id) guildId = some g := hg
    rw [guildUpdateCount_ok _ _ _ g hg']
    refine ⟨bumpCount (membershipDelete db m.id) guildId (-1), by simp [Except.map], ?_, ?_⟩
    · intro hmem
      have hmem' : m ∈ db.memberships.filter (fun x => !(x.id == m.id)) := hmem
      have := (List.mem_filter.mp hmem').2
      simp at this
    · rw [memberCountOf_bumpCount _ _ _ g hg']
      rw [Int.sub_eq_add_neg]

/-- Witness for C3 at a concrete state: the REVOKED (hence non-OWNER,
non-APPROVED) member `u2` leaves `g1`, the membership row is deleted and
the count decremented. -/
theorem C3_leave_behavior_witness :
    ∃ db', leaveGuild revokedAdminDb "g1" "u2" = .ok (true, db') ∧
      revokedAdminM ∉ db'.memberships ∧
      memberCountOf db' "g1" = some (scenarioGuild.memberCount - 1) :=
  (C3_leave_behavior revokedAdminDb "g1" "u2" revokedAdminM scenarioGuild
    rfl rfl).2 (by decide)

/-- C4 (amended): for an actor passing the management check,
`inviteMember` fails with a BadRequest error whenever any Membership
exists for (targetUserId, guildId), regardless of its status — a
previously REVOKED user can not be re-invited — and succeeds, creating
a new PENDING invite carrying the fresh token, exactly when no
membership exists for the pair. -/
theorem C4_invite_blocked_by_any_existing_membership (db : DB) (guildId : String)
    (dto : InviteMemberDto) (invitedBy token : String) (now ttlDays : Nat)
    (hperm : ensureManagePermission db guildId invitedBy = .ok ()) :
    (∀ e, findMembership db dto.userId guildId = some e →
      inviteMember db guildId dto invitedBy token now ttlDays
        = .error (.badRequest "User already invited or member")) ∧
    (findMembership db dto.userId guildId = none →
      ∃ m db', inviteMember db guildId dto invitedBy token now ttlDays
          = .ok ((m, token), db') ∧
        m.userId = dto.userId ∧ m.guildId = guildId ∧
        m.status = .PENDING ∧ m.invitationToken = some token ∧
        m ∈ db'.memberships) := by
  constructor
  · intro e he
    simp [inviteMember, hperm, he]
  · intro hnone
    have hany : (db.memberships.any fun x =>
        x.userId == dto.userId && x.guildId == guildId) = false :=
      List.any_eq_false.mpr (fun x hx => by
        have h := List.find?_eq_none.mp hnone x hx
        simpa using h)
    simp only [inviteMember, hperm, hnone, membershipCreate, hany,
      Bool.false_eq_true, if_false, Except.map]
    exact ⟨_, _, rfl, rfl, rfl, rfl, rfl,
      List.mem_append_right _ (List.mem_singleton.mpr rfl)⟩

/-- Witness for C4 at a concrete state: user `u3` has no membership in
`g1`, so the owner's invite succeeds with a PENDING membership. -/
theorem C4_invite_witness :
    ∃ m db', inviteMember revokedAdminDb "g1" { userId := "u3" } "o1" "tok-9" 5 7
        = .ok ((m, "tok-9"), db') ∧
      m.userId = ({ userId := "u3" } : InviteMemberDto).userId ∧ m.guildId = "g1" ∧
      m.status = .PENDING ∧ m.invitationToken = some "tok-9" ∧
      m ∈ db'.memberships :=
  (C4_invite_blocked_by_any_existing_membership revokedAdminDb "g1"
    { userId := "u3" } "o1" "tok-9" 5 7 rfl).2 rfl

/-- C6: given the actor's and the target's memberships, `assignRole`
succeeds only when the target's current role is not OWNER, the requested
role is not OWNER, and the actor's weight strictly exceeds both the
target's current weight and the requested weight — the success then
changes exactly the target's role; whenever any of the four conditions
fails the call returns an error (and, errors carrying no state, changes
nothing).  In particular an ADMIN assigning ADMIN to a MODERATOR is
rejected (equal-weight promotion, see the witness). -/
theorem C6_assignRole_guard (db : DB) (guildId targetUserId : String) (role : Role)
    (byUserId : String) (am tm : GuildMembership)
    (ham : findMembership db byUserId guildId = some am)
    (htm : findMembership db targetUserId guildId = some tm) :
    (∀ r db', assignRole db guildId targetUserId role byUserId = .ok (r, db') →
      tm.role ≠ .OWNER ∧ role ≠ .OWNER ∧
      getRoleWeight tm.role < getRoleWeight am.role ∧
      getRoleWeight role < getRoleWeight am.role ∧
      r = { tm with role := role }) ∧
    (¬(tm.role ≠ .OWNER ∧ role ≠ .OWNER ∧
        getRoleWeight tm.role < getRoleWeight am.role ∧
        getRoleWeight role < getRoleWeight am.role) →
      ∃ e, assignRole db guildId targetUserId role byUserId = .error e) := by
  cases hperm : ensureManagePermission db guildId byUserId with
  | error e =>
    constructor
    · intro r db' h
      simp [assignRole, hperm] at h
    · intro _
      exact ⟨e, by simp [assignRole, hperm]⟩
  | ok u =>
    by_cases hO : (tm.role == Role.OWNER || role == Role.OWNER) = true
    · constructor
      · intro r db' h
        simp [assignRole, hperm, ham, htm, hO] at h
      · intro _
        exact ⟨.badRequest "Cannot assign owner role via this endpoint",
          by simp [assignRole, hperm, ham, htm, hO]⟩
    · have hO' : tm.role ≠ .OWNER ∧ role ≠ .OWNER := by
        constructor <;> intro hh <;> exact hO (by simp [hh])
      by_cases hW1 : getRoleWeight am.role ≤ getRoleWeight tm.role
      · constructor
        · intro r db' h
          simp [assignRole, hperm, ham, htm, hO, hW1] at h
        · intro _
          exact ⟨.forbidden "Cannot change role of equal or higher member",
            by simp [assignRole, hperm, ham, htm, hO, hW1]⟩
      · by_cases hW2 : getRoleWeight am.role ≤ getRoleWeight role
        · constructor
          · intro r db' h
            simp [assignRole, hperm, ham, htm, hO, hW1, hW2] at h
          · intro _
            exact ⟨.forbidden "Cannot assign a role equal or higher than your own",
              by simp [assignRole, hperm, ham, htm, hO, hW1, hW2]⟩
        · constructor
          · intro r db' h
            simp only [assignRole, hperm, ham, htm, hO, hW1, hW2,
              Bool.false_eq_true, if_false, if_neg, Except.ok.injEq,
              Prod.mk.injEq] at h
            exact ⟨hO'.1, hO'.2, Nat.lt_of_not_le hW1, Nat.lt_of_not_le hW2,
              h.1.symm⟩
          · intro hcontra
            exact absurd ⟨hO'.1, hO'.2, Nat.lt_of_not_le hW1,
              Nat.lt_of_not_le hW2⟩ hcontra

/-- Witness for C6 at a concrete state: the ADMIN `a1` attempting to
assign ADMIN to the MODERATOR `m1` is rejected, since
`weight(ADMIN) > weight(ADMIN)` fails. -/
theorem C6_assignRole_witness :
    ∃ e, assignRole adminModDb "g1" "m1" .ADMIN "a1" = .error e :=
  (C6_assignRole_guard adminModDb "g1" "m1" .ADMIN "a1" adminActorM modTargetM
    rfl rfl).2 (by decide)

/-- C7: after a first successful `approveInviteByToken` with a token
carried by at most one membership of the guild, a second call with the
same token fails with NotFound (the first approval cleared the token)
and the member count has been incremented exactly once across the two
calls. -/
theorem C7_token_replay_rejected (db : DB) (guildId token approverId approverId2 : String)
    (now now2 : Nat) (m : GuildMembership) (db' : DB) (g : Guild)
    (hg : findGuild db guildId = some g)
    (huniq : ∀ x ∈ db.memberships,
      (x.guildId == guildId && x.invitationToken == some token) = true → x.id = m.id)
    (h1 : approveInviteByToken db guildId token approverId now = .ok (m, db')) :
    approveInviteByToken db' guildId token approverId2 now2
        = .error (.notFound "Invite not found") ∧
    memberCountOf db' guildId = some (g.memberCount + 1) := by
  cases hfind : findMembershipByToken db guildId token with
  | none => simp [approveInviteByToken, hfind] at h1
  | some m0 =>
    have htr : approveTransition db guildId m0 now = .ok (m, db') := by
      by_cases hself : (m0.userId == approverId) = true
      · simpa [approveInviteByToken, hfind, hself] using h1
      · cases hens : ensureManagePermission db guildId approverId with
        | error e => simp [approveInviteByToken, hfind, hself, hens] at h1
        | ok u => simpa [approveInviteByToken, hfind, hself, hens] using h1
    have hg1 : findGuild (membershipUpdate db m0.id (approveUpd now)) guildId
        = some g := hg
    unfold approveTransition at htr
    rw [guildUpdateCount_ok _ _ _ g hg1] at htr
    simp only [Except.map, Except.ok.injEq, Prod.mk.injEq] at htr
    obtain ⟨hm, hdb⟩ := htr
    subst hdb
    subst hm
    constructor
    · have hnone : findMembershipByToken
          (bumpCount (membershipUpdate db m0.id (approveUpd now)) guildId 1)
          guildId token = none := by
        unfold findMembershipByToken
        have hms : (bumpCount (membershipUpdate db m0.id (approveUpd now)) guildId 1).memberships
            = db.memberships.map (fun x => if x.id == m0.id then approveUpd now x else x) := rfl
        rw [hms, List.find?_eq_none]
        intro y hy
        obtain ⟨x, hx, rfl⟩ := List.mem_map.mp hy
        by_cases hid : (x.id == m0.id) = true
        · simp [hid, approveUpd]
        · simp only [hid, Bool.false_eq_true, if_false]
          intro hpx
          have hxid := huniq x hx hpx
          simp [approveUpd] at hxid
          exact hid (beq_iff_eq.mpr hxid)
      simp [approveInviteByToken, hnone]
    · exact memberCountOf_bumpCount _ _ _ g hg1

/-- Witness for C7 at a concrete state: the invite of `pendingInviteDb`
is approved by its invitee at time 200; replaying the same token is then
rejected with NotFound and the count was incremented once. -/
theorem C7_token_replay_witness :
    approveInviteByToken approvedInviteDb "g1" "tok-1" "o1" 300
        = .error (.notFound "Invite not found") ∧
    memberCountOf approvedInviteDb "g1" = some (scenarioGuild.memberCount + 1) :=
  C7_token_replay_rejected pendingInviteDb "g1" "tok-1" "u2" "o1" 200 300
    approvedInviteM approvedInviteDb scenarioGuild rfl (by decide) rfl

/-- C8: `joinGuild` is idempotent.  Whenever a first call succeeds with
membership `m` and state `db'`, the membership is APPROVED, a second
call returns the very same `(m, db')` (a no-op), `db'` holds exactly one
membership record for the pair, and the member count was incremented
exactly once across the two calls: by one if the pair was new or
PENDING, and not at all if it was already APPROVED (then even the first
call changed nothing).  The `hpair` hypothesis is the store's
`(userId, guildId)` unique constraint. -/
theorem C8_join_idempotent (db : DB) (guildId userId : String) (now1 now2 : Nat)
    (m : GuildMembership) (db' : DB) (g : Guild)
    (hg : findGuild db guildId = some g)
    (hpair : ∀ x ∈ db.memberships, ∀ y ∈ db.memberships,
      (x.userId == userId && x.guildId == guildId) = true →
      (y.userId == userId && y.guildId == guildId) = true → x = y)
    (h1 : joinGuild db guildId userId now1 = .ok (m, db')) :
    m.status = .APPROVED ∧
    joinGuild db' guildId userId now2 = .ok (m, db') ∧
    m ∈ db'.memberships ∧
    (∀ x ∈ db'.memberships,
      (x.userId == userId && x.guildId == guildId) = true → x = m) ∧
    (findMembership db userId guildId = none →
      memberCountOf db' guildId = some (g.memberCount + 1)) ∧
    (∀ e, findMembership db userId guildId = some e → e.status = .PENDING →
      memberCountOf db' guildId = some (g.memberCount + 1)) ∧
    (∀ e, findMembership db userId guildId = some e → e.status = .APPROVED →
      db' = db) := by
  have hgG : db.guilds.find? (fun x => x.id == guildId) = some g := hg
  have hanyG : (db.guilds.any fun x => x.id == guildId) = true :=
    List.any_eq_true.mpr ⟨g, List.mem_of_find?_eq_some hgG, by
      have h := List.find?_some hgG
      exact h⟩
  cases hfind : findMembership db userId guildId with
  | none =>
    have hfind' : db.memberships.find?
        (fun x => x.userId == userId && x.guildId == guildId) = none := hfind
    have hany : (db.memberships.any fun x =>
        x.userId == userId && x.guildId == guildId) = false :=
      List.any_eq_false.mpr (fun x hx => by
        have h := List.find?_eq_none.mp hfind' x hx
        simpa using h)
    simp only [joinGuild, hfind, joinGuildCreate, membershipCreate, hany,
      Bool.false_eq_true, if_false, guildUpdateCount, hanyG, if_true,
      Except.map, Except.ok.injEq, Prod.mk.injEq] at h1
    obtain ⟨hm, hdb⟩ := h1
    subst hdb
    subst hm
    have hms : (bumpCount
        { db with
          memberships := db.memberships ++
            [{ id := db.nextId, userId := userId, guildId := guildId,
               role := .MEMBER, status := .APPROVED, joinedAt := some now1 }],
          nextId := db.nextId + 1 } guildId 1).memberships
        = db.memberships ++
            [{ id := db.nextId, userId := userId, guildId := guildId,
               role := .MEMBER, status := .APPROVED, joinedAt := some now1 }] := rfl
    have hfind2 : findMembership (bumpCount
        { db with
          memberships := db.memberships ++
            [{ id := db.nextId, userId := userId, guildId := guildId,
               role := .MEMBER, status := .APPROVED, joinedAt := some now1 }],
          nextId := db.nextId + 1 } guildId 1) userId guildId
        = some { id := db.nextId, userId := userId, guildId := guildId,
                 role := .MEMBER, status := .APPROVED, joinedAt := some now1 } := by
      unfold findMembership
      rw [hms, find?_append_none _ _ hfind']
      simp
    refine ⟨rfl, ?_, ?_, ?_, ?_, ?_, ?_⟩
    · simp [joinGuild, hfind2]
    · rw [hms]
      exact List.mem_append_right _ (List.mem_singleton.mpr rfl)
    · intro x hx hpx
      rw [hms] at hx
      rcases List.mem_append.mp hx with hxl | hxr
      · exact absurd hpx (by simpa using List.find?_eq_none.mp hfind' x hxl)
      · exact List.mem_singleton.mp hxr
    · intro _
      exact memberCountOf_bumpCount _ _ _ g hg
    · intro e he
      cases he
    · intro e he
      cases he
  | some e =>
    have hpe : (e.userId == userId && e.guildId == guildId) = true := by
      have h := List.find?_some hfind
      exact h
    have hme : e ∈ db.memberships := List.mem_of_find?_eq_some hfind
    cases hstat : e.status with
    | APPROVED =>
      have hbAA : (MembershipStatus.APPROVED == MembershipStatus.APPROVED) = true := rfl
      simp only [joinGuild, hfind, hstat, hbAA, if_true, Except.ok.injEq,
        Prod.mk.injEq] at h1
      obtain ⟨hm, hdb⟩ := h1
      subst hdb
      subst hm
      refine ⟨hstat, ?_, hme, ?_, ?_, ?_, fun _ _ _ => rfl⟩
      · simp [joinGuild, hfind, hstat, hbAA]
      · intro x hx hpx
        exact hpair x hx e hme hpx hpe
      · intro hno
        cases hno
      · intro e' he' hp'
        cases he'
        rw [hstat] at hp'
        cases hp'
    | PENDING =>
      have hbPA : (MembershipStatus.PENDING == MembershipStatus.APPROVED) = false := rfl
      have hbPP : (MembershipStatus.PENDING == MembershipStatus.PENDING) = true := rfl
      have hgu : guildUpdateCount (membershipUpdate db e.id (joinUpd now1)) guildId 1
          = .ok (bumpCount (membershipUpdate db e.id (joinUpd now1)) guildId 1) :=
        guildUpdateCount_ok _ _ _ g hg
      simp only [joinGuild, hfind, hstat, hbPA, hbPP, Bool.false_eq_true,
        if_false, if_true, hgu, Except.map, Except.ok.injEq,
        Prod.mk.injEq] at h1
      obtain ⟨hm, hdb⟩ := h1
      subst hdb
      subst hm
      have hf : ∀ x : GuildMembership,
          ((if x.id == e.id then joinUpd now1 x else x).userId == userId &&
            (if x.id == e.id then joinUpd now1 x else x).guildId == guildId)
          = (x.userId == userId && x.guildId == guildId) := by
        intro x
        by_cases hid : (x.id == e.id) = true <;> simp [hid, joinUpd]
      have hms : (bumpCount (membershipUpdate db e.id (joinUpd now1)) guildId 1).memberships
          = db.memberships.map (fun x => if x.id == e.id then joinUpd now1 x else x) := rfl
      have hfind'' : db.memberships.find?
          (fun x => x.userId == userId && x.guildId == guildId) = some e := hfind
      have hfind2 : findMembership
          (bumpCount (membershipUpdate db e.id (joinUpd now1)) guildId 1) userId guildId
          = some (joinUpd now1 e) := by
        unfold findMembership
        rw [hms, find?_map_comm _ _ hf, hfind'']
        simp
      refine ⟨rfl, ?_, ?_, ?_, ?_, ?_, ?_⟩
      · have hbAA : (MembershipStatus.APPROVED == MembershipStatus.APPROVED) = true := rfl
        simp [joinGuild, hfind2, joinUpd, hbAA]
      · rw [hms]
        exact List.mem_map.mpr ⟨e, hme, by simp⟩
      · intro x hx hpx
        rw [hms] at hx
        obtain ⟨y, hy, hyx⟩ := List.mem_map.mp hx
        have hpy : (y.userId == userId && y.guildId == guildId) = true := by
          rw [← hf y, hyx]
          exact hpx
        have hye : y = e := hpair y hy e hme hpy hpe
        rw [← hyx, hye]
        simp
      · intro hno
        cases hno
      · intro e' he' _
        exact memberCountOf_bumpCount _ _ _ g hg
      · intro e' he' hst
        cases he'
        rw [hstat] at hst
        cases hst
    | REVOKED =>
      have hbRA : (MembershipStatus.REVOKED == MembershipStatus.APPROVED) = false := rfl
      have hbRP : (MembershipStatus.REVOKED == MembershipStatus.PENDING) = false := rfl
      have hanyT : (db.memberships.any fun x =>
          x.userId == userId && x.guildId == guildId) = true :=
        List.any_eq_true.mpr ⟨e, hme, hpe⟩
      simp [joinGuild, hfind, hstat, hbRA, hbRP, joinGuildCreate,
        membershipCreate, hanyT] at h1

/-- Witness for C8 at a concrete state: `u3` freshly joins `g1`, and the
second call is a verified no-op returning the same approved membership
and state, with the count incremented once. -/
theorem C8_join_witness :
    ({ id := 2, userId := "u3", guildId := "g1", role := .MEMBER,
       status := .APPROVED, joinedAt := some 7 } : GuildMembership).status
        = .APPROVED ∧
    joinGuild (bumpCount
        { revokedAdminDb with
          memberships := revokedAdminDb.memberships ++
            [{ id := 2, userId := "u3", guildId := "g1", role := .MEMBER,
               status := .APPROVED, joinedAt := some 7 }],
          nextId := 3 } "g1" 1) "g1" "u3" 8
      = .ok ({ id := 2, userId := "u3", guildId := "g1", role := .MEMBER,
               status := .APPROVED, joinedAt := some 7 },
             bumpCount
               { revokedAdminDb with
                 memberships := revokedAdminDb.memberships ++
                   [{ id := 2, userId := "u3", guildId := "g1", role := .MEMBER,
                      status := .APPROVED, joinedAt := some 7 }],
                 nextId := 3 } "g1" 1) :=
  ⟨(C8_join_idempotent revokedAdminDb "g1" "u3" 7 8 _ _ scenarioGuild
      rfl (by decide) rfl).1,
   (C8_join_idempotent revokedAdminDb "g1" "u3" 7 8 _ _ scenarioGuild
      rfl (by decide) rfl).2.1⟩

/-- C9: for every store state, query (present, absent or empty), page
and size, every guild in the `searchGuilds` result has
`discoverable = some true` in its settings; a guild with the key absent
or false never appears. -/
theorem C9_search_returns_only_discoverable (db : DB) (q : Option String)
    (page size : Nat) (g : Guild)
    (hmem : g ∈ (searchGuilds db q page size).items) :
    g.settings.discoverable = some true := by
  unfold searchGuilds at hmem
  simp only at hmem
  have h1 := List.mem_of_mem_drop (List.mem_of_mem_take hmem)
  have h2 := (List.mem_filter.mp h1).2
  have h3 := (Bool.and_eq_true_iff.mp h2).2
  exact eq_of_beq h3

/-- Witness for C9 at a concrete state and query. -/
theorem C9_witness : discoverableG.settings.discoverable = some true :=
  C9_search_returns_only_discoverable searchDb none 0 20 discoverableG (by decide)

/-- C10: the token-only-while-PENDING invariant fails on the code.  In
`pendingInviteDb`, user `u2` has a PENDING invite with token `tok-1`;
`joinGuild` converges it to APPROVED but leaves `invitationToken` set,
and a later `approveInviteByToken` with the stale token still succeeds
and increments the member count a second time. -/
theorem C10_join_keeps_invitation_token :
    (findMembership pendingInviteDb "u2" "g1").map
        (fun m => (m.status, m.invitationToken)) = some (.PENDING, some "tok-1")
    ∧ (joinGuild pendingInviteDb "g1" "u2" 200).map
        (fun p => (p.1.status, p.1.invitationToken)) = .ok (.APPROVED, some "tok-1")
    ∧ ((joinGuild pendingInviteDb "g1" "u2" 200).bind
        (fun p => approveInviteByToken p.2 "g1" "tok-1" "u2" 300)).map
        (fun p => memberCountOf p.2 "g1") = .ok (some 3) :=
  ⟨rfl, rfl, rfl⟩

end StellarGuilds
